import Mathlib

/-!
Shallow embedding of the persistent data network repository: the
server/client skeleton and `ConsensusAlgorithm` from the first source file,
and the Kademlia-backed user-to-user message store (`storeMessage` /
`getMessage`) from `pdn_user_to_user.cpp`.  Components that the design
document specifies but that are absent from the source (`TransactionLog`,
`MembershipTable.closestTo`, the DHT routing/lookup core behind the
external kademlia library) are modelled from the spec and marked as such.
-/

/-- Two's-complement wrap-around of a C `int` (32-bit) value. -/
def wrap32 (x : Int) : Int := (x + 2 ^ 31) % 2 ^ 32 - 2 ^ 31

/-- State of the `ConsensusAlgorithm` class: the `currentProposal` and
`voteCount` int members and the `transactions` map
(`std::map<std::string, std::vector<std::string>>`). -/
structure ConsensusAlgorithm where
  currentProposal : Int
  voteCount : Int
  transactions : List (String × List String)
deriving DecidableEq

/-- Initialisation performed at the top of `ConsensusAlgorithm::start`:
`currentProposal = 0; voteCount = 0;`. -/
def ConsensusAlgorithm.init (ts : List (String × List String)) : ConsensusAlgorithm :=
  { currentProposal := 0, voteCount := 0, transactions := ts }

/-- `ConsensusAlgorithm::incrementProposal`: `return currentProposal++;` —
returns the old value of `currentProposal` and stores the incremented one. -/
def ConsensusAlgorithm.incrementProposal (s : ConsensusAlgorithm) :
    Int × ConsensusAlgorithm :=
  (s.currentProposal, { s with currentProposal := wrap32 (s.currentProposal + 1) })

/-- `ConsensusAlgorithm::updateCurrentProposal`: sets
`currentProposal = proposalNumber`, resets `voteCount = 0`, then increments
`voteCount` once per entry of `transactions` while printing each one. -/
def ConsensusAlgorithm.updateCurrentProposal (s : ConsensusAlgorithm)
    (proposalNumber : Int) : ConsensusAlgorithm :=
  { s with
    currentProposal := proposalNumber,
    voteCount := s.transactions.foldl (fun v _ => wrap32 (v + 1)) 0 }

/-- One parsed client reply as read by `ConsensusAlgorithm::waitForVotes`:
only its `"majority"` JSON field is ever consulted. -/
structure VoteResponse where
  majority : Bool
deriving DecidableEq

/-- `ConsensusAlgorithm::waitForVotes`: reads client data in a loop; the end
of the list models `recvClientData()` returning `0`/`-1` (the loop breaks and
the proposal is rejected).  A reply whose `majority` field is `true` makes the
proposal accepted: `updateCurrentProposal(proposalNumber)` runs and the loop
returns.  The result records whether the proposal was accepted together with
the state after the call. -/
def ConsensusAlgorithm.waitForVotes (s : ConsensusAlgorithm) (proposalNumber : Int) :
    List VoteResponse → Bool × ConsensusAlgorithm
  | [] => (false, s)
  | r :: rest =>
    if r.majority then (true, s.updateCurrentProposal proposalNumber)
    else s.waitForVotes proposalNumber rest

/-- Modelled from the spec: the majority threshold for a membership snapshot
of size `n` is `floor(n/2) + 1`. -/
def majorityThreshold (n : Nat) : Nat := n / 2 + 1

/-- State of the `Server` class.  The member is declared
`std::map<std::string, std::vector<std::string>> transactions` but the only
use site is `transactions.push_back(data)`, i.e. it is used as a growing
sequence of received strings; the embedding follows the use site. -/
structure Server where
  transactions : List String
deriving DecidableEq

/-- One iteration of the accept loop in `Server::start`: the `"data"` field of
the parsed request is appended to `transactions` unconditionally. -/
def Server.handleRequest (s : Server) (data : String) : Server :=
  { s with transactions := s.transactions ++ [data] }

/-- `Server::start` over a finite stream of successfully received requests
(each element is the `"data"` field of one parsed request). -/
def Server.start (s : Server) (requests : List String) : Server :=
  requests.foldl Server.handleRequest s

/-- Error taxonomy of the spec's TransactionLog contract. -/
inductive LogError where
  | outOfOrder
  | notFound
deriving DecidableEq

/-- Modelled from the spec: the TransactionLog component is absent from the
source; its state is the ordered sequence of appended entries. -/
structure TransactionLog where
  entries : List String
deriving DecidableEq

/-- Modelled from the spec: `append(index, value)` fails with `OutOfOrder` if
`index` differs from the current length, otherwise extends the log by one
entry at the end. -/
def TransactionLog.append (log : TransactionLog) (index : Nat) (value : String) :
    Except LogError TransactionLog :=
  if index = log.entries.length then Except.ok ⟨log.entries ++ [value]⟩
  else Except.error LogError.outOfOrder

/-- The host environment's socket primitive, as seen by `Client::connect`:
`socket(domain, type, protocol)` returns a file descriptor (or `-1`). -/
structure SocketEnv where
  socket : Nat → Nat → Nat → Int

/-- The `AF_INET` address-family constant. -/
def AF_INET : Nat := 2

/-- The `SOCK_STREAM` socket-type constant. -/
def SOCK_STREAM : Nat := 1

/-- `Client::connect(host, port)`: its body is
`return socket(AF_INET, SOCK_STREAM, 0);` — the `host` and `port` parameters
are never read. -/
def Client.connect (env : SocketEnv) (host : String) (port : Int) : Int :=
  env.socket AF_INET SOCK_STREAM 0

/-- A known peer, per the spec's data model (the routing computations only
consult `id`). -/
structure Node where
  id : Nat
  address : String
  alive : Bool
deriving DecidableEq

/-- XOR distance between two identifiers interpreted as integers. -/
def xorDist (a b : Nat) : Nat := Nat.xor a b

/-- The routing order towards `key`: smaller XOR distance first, ties between
equal distances broken by the smaller node id (ids are fixed-length, so
numeric order coincides with lexicographic order on their digit strings). -/
def nodeLe (key : Nat) (a b : Node) : Prop :=
  xorDist a.id key < xorDist b.id key ∨
    (xorDist a.id key = xorDist b.id key ∧ a.id ≤ b.id)

instance (key : Nat) : DecidableRel (nodeLe key) := fun a b =>
  decidable_of_iff
    (xorDist a.id key < xorDist b.id key ∨
      (xorDist a.id key = xorDist b.id key ∧ a.id ≤ b.id)) Iff.rfl

instance (key : Nat) : IsTotal Node (nodeLe key) where
  total a b := by unfold nodeLe; omega

instance (key : Nat) : IsTrans Node (nodeLe key) where
  trans a b c hab hbc := by unfold nodeLe at hab hbc ⊢; omega

/-- Modelled from the spec: `MembershipTable.closestTo(key, k)` — sort the
known nodes by XOR distance of their id to `key` (ties by smaller id) and
return the `k` closest. -/
def closestTo (table : List Node) (key k : Nat) : List Node :=
  (List.insertionSort (nodeLe key) table).take k

/-- A stored message is keyed by the (sender, recipient) pair that
`storeMessage` passes to `kademlia::add` and `getMessage` passes to
`kademlia::get`. -/
abbrev MsgKey := String × String

/-- The key-value pairs held by one DHT node. -/
abbrev NodeStore := List (MsgKey × String)

/-- Modelled from the spec: the DHT overlay state behind the external
kademlia library — the membership table plus each node's local store,
an association list from node id to that node's stored pairs. -/
structure DHTState where
  membership : List Node
  stores : List (Nat × NodeStore)

/-- Look a key up in one node's local store. -/
def storeGet : NodeStore → MsgKey → Option String
  | [], _ => none
  | (k2, v) :: rest, k => if k2 = k then some v else storeGet rest k

/-- The local store of the node with id `nid` (empty if it never stored). -/
def getStore : List (Nat × NodeStore) → Nat → NodeStore
  | [], _ => []
  | (i, s) :: rest, nid => if i = nid then s else getStore rest nid

/-- Record `(k, v)` in the local store of the node with id `nid`. -/
def storesPut : List (Nat × NodeStore) → Nat → MsgKey → String → List (Nat × NodeStore)
  | [], nid, k, v => [(nid, [(k, v)])]
  | (i, s) :: rest, nid, k, v =>
    if i = nid then (i, (k, v) :: s) :: rest
    else (i, s) :: storesPut rest nid k v

/-- Record `(k, v)` at every node id in `L`, in order. -/
def foldPuts (stores : List (Nat × NodeStore)) (L : List Nat) (k : MsgKey)
    (v : String) : List (Nat × NodeStore) :=
  L.foldl (fun acc nid => storesPut acc nid k v) stores

/-- The spec's fixed replication factor K (its scenarios use the 3 closest
nodes). -/
def replicationK : Nat := 3

/-- Modelled from the spec: the derived DHT key of a (sender, recipient)
message key, placing it in the id coordinate space.  The spec leaves the
concrete hash unspecified; the properties proved below hold for any choice. -/
def msgKeyHash (k : MsgKey) : Nat := k.fst.length * 31 + k.snd.length

/-- Modelled from the spec: `route(key)` delegates to
`MembershipTable.closestTo(key, K)`; we retain the ids of the replica set. -/
def routeIds (st : DHTState) (k : MsgKey) : List Nat :=
  (closestTo st.membership (msgKeyHash k) replicationK).map Node.id

/-- Modelled from the spec: `store(key, value)` sends STORE to every replica
in `route(key)`; each replica records the pair in its local store. -/
def dhtStore (st : DHTState) (k : MsgKey) (v : String) : DHTState :=
  { st with stores := foldPuts st.stores (routeIds st k) k v }

/-- Query each holder in turn for `k`; the first value found is returned. -/
def queryHolders (st : DHTState) (k : MsgKey) : List Nat → Option String
  | [] => none
  | nid :: rest =>
    match storeGet (getStore st.stores nid) k with
    | some v => some v
    | none => queryHolders st k rest

/-- Modelled from the spec: `lookup(key)` — iterative querying converges on
the replica set `route(key)`; the reachable replicas are queried and the
value is returned if any holds it, `NotFound` (here `none`) otherwise. -/
def dhtLookup (reachable : List Nat) (st : DHTState) (k : MsgKey) : Option String :=
  queryHolders st k ((routeIds st k).filter (fun nid => reachable.contains nid))

/-- The `Message` struct of `pdn_user_to_user.cpp`: sender, recipient and
payload data. -/
structure Message where
  sender : String
  recipient : String
  data : String
deriving DecidableEq

/-- The DHT key under which a message is filed: the (sender, recipient)
arguments that `storeMessage` forwards to `kademlia::add`. -/
def dhtKeyOf (m : Message) : MsgKey := (m.sender, m.recipient)

/-- `storeMessage(message)`: `kademlia::add(node, sender, recipient, data)` —
store the payload under the (sender, recipient) key. -/
def storeMessage (st : DHTState) (m : Message) : DHTState :=
  dhtStore st (m.sender, m.recipient) m.data

/-- `getMessage(sender, recipient)`: `return kademlia::get(node, sender,
recipient);` — the `std::string` return collapses an absent key to the
default-constructed empty string, leaving no separate absence result. -/
def getMessage (reachable : List Nat) (st : DHTState)
    (sender recipient : String) : String :=
  (dhtLookup reachable st (sender, recipient)).getD ""

/-- A one-node sample overlay used as concrete input in witnesses. -/
def st0 : DHTState := { membership := [{ id := 1, address := "", alive := true }], stores := [] }

/-- A sample message. -/
def msgAliceBob : Message := { sender := "Alice", recipient := "Bob", data := "Hello, Bob!" }

/-- C1: refuted on the code — `updateCurrentProposal` is supposed to be the
commit point and never re-commit a different value for an already-decided
proposal, but it unconditionally overwrites the decided proposal: after
committing proposal 5 the coordinator state records 5, and a further call
with 7 replaces it by 7 ≠ 5.  No per-index record of committed values exists
at all. -/
theorem updateCurrentProposal_recommits_different_value :
    ((ConsensusAlgorithm.init []).updateCurrentProposal 5).currentProposal = 5 ∧
    (((ConsensusAlgorithm.init []).updateCurrentProposal 5).updateCurrentProposal 7).currentProposal = 7 ∧
    (7 : Int) ≠ 5 := by
  refine ⟨rfl, rfl, by decide⟩

/-- C2: refuted on the code — against a 5-member snapshot the majority
threshold is 3, yet `waitForVotes` declares the proposal accepted upon the
first reply whose client-supplied `majority` flag is true: a single reply
(hence at most 1 acknowledging member, fewer than `majorityThreshold 5 = 3`)
makes it commit.  The decision reads the flag, not any count against the
snapshot. -/
theorem waitForVotes_commits_below_quorum :
    ((ConsensusAlgorithm.init []).waitForVotes 1 [{ majority := true }]).fst = true ∧
    [VoteResponse.mk true].length < majorityThreshold 5 := by
  refine ⟨rfl, by decide⟩

/-- C3: refuted on the code — `incrementProposal` returns the pre-increment
`currentProposal` and `updateCurrentProposal` writes the accepted number
back, so proposal numbers repeat: from a fresh coordinator,
`incrementProposal` returns 0; after `updateCurrentProposal(0)` the next
`incrementProposal` returns 0 again, not a strictly greater number. -/
theorem incrementProposal_not_strictly_increasing :
    ((ConsensusAlgorithm.init []).incrementProposal).fst = 0 ∧
    ((((ConsensusAlgorithm.init []).incrementProposal).snd.updateCurrentProposal
        ((ConsensusAlgorithm.init []).incrementProposal).fst).incrementProposal).fst = 0 ∧
    ¬ ((ConsensusAlgorithm.init []).incrementProposal).fst <
        ((((ConsensusAlgorithm.init []).incrementProposal).snd.updateCurrentProposal
            ((ConsensusAlgorithm.init []).incrementProposal).fst).incrementProposal).fst := by
  refine ⟨rfl, rfl, by decide⟩

/-- C4: refuted on the code — a coordinator that has already decided
proposal 7 still accepts a lower-numbered proposal 5: `waitForVotes` keeps no
promise state and never NACKs, so an ACCEPT for 5 carrying `majority = true`
is declared accepted and overwrites the decided 7 with 5 (the lower proposal
wins). -/
theorem waitForVotes_accepts_lower_numbered_proposal :
    (((ConsensusAlgorithm.init []).updateCurrentProposal 7).waitForVotes 5
        [{ majority := true }]).fst = true ∧
    (((ConsensusAlgorithm.init []).updateCurrentProposal 7).waitForVotes 5
        [{ majority := true }]).snd.currentProposal = 5 :=
  ⟨rfl, rfl⟩

/-- C5: refuted on the code — `Server::start` appends every received
`"data"` field unconditionally (requests carry no index and no ordering
check is made, so an `OutOfOrder` failure can never occur on that path),
whereas the spec's `TransactionLog.append` rejects an index that differs
from the current length. -/
theorem serverStart_appends_unconditionally :
    (Server.start { transactions := [] } ["x", "y"]).transactions = ["x", "y"] ∧
    TransactionLog.append { entries := [] } 1 "x" = Except.error LogError.outOfOrder :=
  ⟨rfl, rfl⟩

/-- Putting a pair at node `nid` prepends it to that node's local store. -/
theorem getStore_storesPut_self (stores : List (Nat × NodeStore)) (nid : Nat)
    (k : MsgKey) (v : String) :
    getStore (storesPut stores nid k v) nid = (k, v) :: getStore stores nid := by
  induction stores with
  | nil => simp [storesPut, getStore]
  | cons p rest ih =>
    obtain ⟨i, s⟩ := p
    by_cases hi : i = nid
    · subst hi; simp [storesPut, getStore]
    · simp [storesPut, getStore, hi, ih]

/-- Putting a pair at another node leaves node `nid`'s local store unchanged. -/
theorem getStore_storesPut_ne (stores : List (Nat × NodeStore)) {m nid : Nat}
    (h : m ≠ nid) (k : MsgKey) (v : String) :
    getStore (storesPut stores m k v) nid = getStore stores nid := by
  induction stores with
  | nil => simp [storesPut, getStore, h]
  | cons p rest ih =>
    obtain ⟨i, s⟩ := p
    by_cases hi : i = m
    · subst hi; simp [storesPut, getStore, h]
    · simp [storesPut, getStore, hi, ih]

/-- Replicating a pair to the node ids in `L` leaves any node outside `L`
untouched. -/
theorem getStore_foldPuts_of_notMem (stores : List (Nat × NodeStore))
    (L : List Nat) (k : MsgKey) (v : String) {nid : Nat} (h : nid ∉ L) :
    getStore (foldPuts stores L k v) nid = getStore stores nid := by
  induction L generalizing stores with
  | nil => rfl
  | cons a rest ih =>
    have ha : a ≠ nid := fun e => h (e ▸ List.mem_cons_self a rest)
    have hr : nid ∉ rest := fun e => h (List.mem_cons_of_mem a e)
    calc getStore (foldPuts (storesPut stores a k v) rest k v) nid
        = getStore (storesPut stores a k v) nid := ih _ hr
      _ = getStore stores nid := getStore_storesPut_ne stores ha k v

/-- After replicating `(k, v)` to every node id in `L`, each node in `L`
holds `v` under `k`. -/
theorem storeGet_foldPuts_of_mem (stores : List (Nat × NodeStore))
    (L : List Nat) (k : MsgKey) (v : String) {nid : Nat} (h : nid ∈ L) :
    storeGet (getStore (foldPuts stores L k v) nid) k = some v := by
  induction L generalizing stores with
  | nil => cases h
  | cons a rest ih =>
    by_cases hr : nid ∈ rest
    · exact ih _ hr
    · have ha : nid = a := by
        rcases List.mem_cons.mp h with h1 | h1
        · exact h1
        · exact absurd h1 hr
      subst ha
      have : getStore (foldPuts (storesPut stores nid k v) rest k v) nid
          = (k, v) :: getStore stores nid := by
        rw [getStore_foldPuts_of_notMem _ _ _ _ hr, getStore_storesPut_self]
      show storeGet (getStore (foldPuts (storesPut stores nid k v) rest k v) nid) k = some v
      rw [this]
      simp [storeGet]

/-- Storing never changes the membership table, hence never changes routing. -/
theorem routeIds_dhtStore (st : DHTState) (k k2 : MsgKey) (v : String) :
    routeIds (dhtStore st k2 v) k = routeIds st k := rfl

/-- Querying a non-empty list of holders that all hold `v` under `k`
returns `v`. -/
theorem queryHolders_eq_some (st : DHTState) (k : MsgKey) (v : String) :
    ∀ L : List Nat, L ≠ [] →
      (∀ nid ∈ L, storeGet (getStore st.stores nid) k = some v) →
      queryHolders st k L = some v := by
  intro L hne hall
  cases L with
  | nil => exact absurd rfl hne
  | cons a rest =>
    have ha := hall a (List.mem_cons_self a rest)
    simp [queryHolders, ha]

/-- C6: confirmed (DHT core modelled from the spec) — storing a message's
payload under its (sender, recipient) key with `storeMessage` and then
looking that key up with `getMessage` returns the payload, provided at least
one of the replicas from `route` of that key is reachable. -/
theorem storeMessage_getMessage_roundtrip (st : DHTState) (reachable : List Nat)
    (m : Message)
    (h : ∃ nid ∈ routeIds st (m.sender, m.recipient), reachable.contains nid = true) :
    dhtLookup reachable (storeMessage st m) (m.sender, m.recipient) = some m.data ∧
    getMessage reachable (storeMessage st m) m.sender m.recipient = m.data := by
  obtain ⟨nid, hmem, hreach⟩ := h
  have hall : ∀ i ∈ routeIds st (m.sender, m.recipient),
      storeGet (getStore (storeMessage st m).stores i) (m.sender, m.recipient)
        = some m.data := by
    intro i hi
    exact storeGet_foldPuts_of_mem st.stores _ _ _ hi
  have hroute : routeIds (storeMessage st m) (m.sender, m.recipient)
      = routeIds st (m.sender, m.recipient) :=
    routeIds_dhtStore st _ _ _
  have hlk : dhtLookup reachable (storeMessage st m) (m.sender, m.recipient)
      = some m.data := by
    unfold dhtLookup
    rw [hroute]
    refine queryHolders_eq_some _ _ _ _ ?_ ?_
    · intro hnil
      have : nid ∈ (routeIds st (m.sender, m.recipient)).filter
          (fun i => reachable.contains i) := List.mem_filter.mpr ⟨hmem, hreach⟩
      rw [hnil] at this
      cases this
    · intro i hi
      exact hall i (List.mem_filter.mp hi).1
  exact ⟨hlk, by unfold getMessage; rw [hlk]; rfl⟩

/-- Witness for C6 at a concrete one-node overlay: node 1 is the reachable
replica and the stored payload comes back. -/
theorem storeMessage_getMessage_roundtrip_witness :
    (∃ nid ∈ routeIds st0 (msgAliceBob.sender, msgAliceBob.recipient),
      [1].contains nid = true) ∧
    getMessage [1] (storeMessage st0 msgAliceBob) msgAliceBob.sender
      msgAliceBob.recipient = msgAliceBob.data :=
  ⟨by decide, (storeMessage_getMessage_roundtrip st0 [1] msgAliceBob (by decide)).2⟩

/-- C7: refuted on the code — the modelled DHT lookup correctly reports an
absent key as `none` (NotFound as absence), but `getMessage` returns a bare
string: on the same fresh overlay it yields `""` for the never-stored key
("Alice", "Charlie"), which is exactly what it yields after an empty payload
has been stored under that key, so the caller cannot distinguish an absent
key from a value (or an error) through it. -/
theorem getMessage_conflates_absence_with_value :
    dhtLookup [1] st0 ("Alice", "Charlie") = none ∧
    getMessage [1] st0 "Alice" "Charlie" = "" ∧
    getMessage [1] (storeMessage st0
      { sender := "Alice", recipient := "Charlie", data := "" }) "Alice" "Charlie" = "" := by
  refine ⟨by decide, by decide, by decide⟩

/-- C10: confirmed — the DHT key under which `storeMessage` files a message
is `(sender, recipient)` and nothing else: two messages with equal sender and
recipient get the same key whatever their payloads (the source `Message`
struct has no sequence-number or timestamp field at all), storing uses that
key with the payload only as the stored value, and `getMessage` consults the
overlay only through that derived key. -/
theorem storage_key_from_sender_recipient_only (m1 m2 : Message)
    (hs : m1.sender = m2.sender) (hr : m1.recipient = m2.recipient) :
    dhtKeyOf m1 = dhtKeyOf m2 ∧
    (∀ st : DHTState, storeMessage st m1 = dhtStore st (dhtKeyOf m2) m1.data) ∧
    (∀ (reachable : List Nat) (st : DHTState),
      getMessage reachable st m1.sender m1.recipient
        = (dhtLookup reachable st (dhtKeyOf m2)).getD "") := by
  have hk : dhtKeyOf m1 = dhtKeyOf m2 := by
    unfold dhtKeyOf; rw [hs, hr]
  refine ⟨hk, ?_, ?_⟩
  · intro st
    show dhtStore st (dhtKeyOf m1) m1.data = dhtStore st (dhtKeyOf m2) m1.data
    rw [hk]
  · intro reachable st
    show (dhtLookup reachable st (dhtKeyOf m1)).getD ""
        = (dhtLookup reachable st (dhtKeyOf m2)).getD ""
    rw [hk]

/-- Witness for C10 at two concrete messages that differ only in payload. -/
theorem storage_key_from_sender_recipient_only_witness :
    dhtKeyOf { sender := "Alice", recipient := "Bob", data := "Hello, Bob!" } =
      dhtKeyOf { sender := "Alice", recipient := "Bob", data := "Hi!" } :=
  (storage_key_from_sender_recipient_only
    { sender := "Alice", recipient := "Bob", data := "Hello, Bob!" }
    { sender := "Alice", recipient := "Bob", data := "Hi!" } rfl rfl).1

/-- C8: confirmed (MembershipTable modelled from the spec) — `closestTo key k`
returns `min k n` of the known nodes, sorted by XOR distance of their id to
`key` with ties broken by the smaller id, and the returned nodes precede every
left-out node in that order (they are the `k` closest): the result extends by
some `rest` to a permutation of the table. -/
theorem closestTo_k_smallest_by_xor_distance (table : List Node) (key k : Nat) :
    ∃ rest : List Node,
      List.Perm (closestTo table key k ++ rest) table ∧
      (closestTo table key k).length = min k table.length ∧
      List.Sorted (nodeLe key) (closestTo table key k) ∧
      ∀ a ∈ closestTo table key k, ∀ b ∈ rest, nodeLe key a b := by
  refine ⟨(List.insertionSort (nodeLe key) table).drop k, ?_, ?_, ?_, ?_⟩
  · have : closestTo table key k ++ (List.insertionSort (nodeLe key) table).drop k
        = List.insertionSort (nodeLe key) table := List.take_append_drop k _
    rw [this]
    exact List.perm_insertionSort _ _
  · rw [closestTo, List.length_take, List.length_insertionSort]
  · exact List.Pairwise.sublist (List.take_sublist _ _)
      (List.sorted_insertionSort (nodeLe key) table)
  · have hp : List.Pairwise (nodeLe key)
        (closestTo table key k ++ (List.insertionSort (nodeLe key) table).drop k) := by
      have : closestTo table key k ++ (List.insertionSort (nodeLe key) table).drop k
          = List.insertionSort (nodeLe key) table := List.take_append_drop k _
      rw [this]
      exact List.sorted_insertionSort (nodeLe key) table
    exact (List.pairwise_append.mp hp).2.2

/-- Witness for C8 at a concrete table, key and k. -/
theorem closestTo_k_smallest_by_xor_distance_witness :
    ∃ rest : List Node,
      List.Perm (closestTo st0.membership 0 3 ++ rest) st0.membership ∧
      (closestTo st0.membership 0 3).length = min 3 st0.membership.length ∧
      List.Sorted (nodeLe 0) (closestTo st0.membership 0 3) ∧
      ∀ a ∈ closestTo st0.membership 0 3, ∀ b ∈ rest, nodeLe 0 a b :=
  closestTo_k_smallest_by_xor_distance st0.membership 0 3

/-- C9: confirmed — `Client::connect` never reads its `host` and `port`
parameters: its result is `socket(AF_INET, SOCK_STREAM, 0)` for every pair of
arguments, so the value returned is independent of them and no connection to
the named host/port is established by it. -/
theorem connect_independent_of_host_port (env : SocketEnv) (h1 : String) (p1 : Int)
    (h2 : String) (p2 : Int) :
    Client.connect env h1 p1 = Client.connect env h2 p2 ∧
    Client.connect env h1 p1 = env.socket AF_INET SOCK_STREAM 0 :=
  ⟨rfl, rfl⟩

/-- Witness for C9 at a concrete socket environment and two distinct
host/port pairs. -/
theorem connect_independent_of_host_port_witness :
    Client.connect { socket := fun _ _ _ => 7 } "localhost" 8080 =
      Client.connect { socket := fun _ _ _ => 7 } "example.org" 1 ∧
    Client.connect { socket := fun _ _ _ => 7 } "localhost" 8080 =
      SocketEnv.socket { socket := fun _ _ _ => 7 } AF_INET SOCK_STREAM 0 :=
  connect_independent_of_host_port { socket := fun _ _ _ => 7 } "localhost" 8080
    "example.org" 1
